import Mathlib

/-!
# Verification of the Orbital Injection Simulator (OrbitalLab)

Shallow embedding of the physics / state-machine core of the
`OrbitalLab` React component: the per-frame sub-stepped symplectic
Euler trajectory integrator, the crash/escape event detection, the
trail sampling, the run-controller transitions (launch / reset /
parameter change), and the analytic orbital-elements predictor
(`trajectoryStats`).  Real numbers stand in for the source's
double-precision floats; three.js `Vector3` values are embedded as a
triple of reals with value semantics (the source always clones before
mutating shared vectors at the points modelled here).
-/

noncomputable section

namespace OrbitalLab

/-- Embedded `THREE.Vector3`: a 3-component real vector. -/
structure Vec3 where
  x : ℝ
  y : ℝ
  z : ℝ

namespace Vec3

/-- Component-wise vector addition (`Vector3.add`). -/
def add (a b : Vec3) : Vec3 := ⟨a.x + b.x, a.y + b.y, a.z + b.z⟩

/-- Scalar multiplication (`Vector3.multiplyScalar`). -/
def smul (a : Vec3) (k : ℝ) : Vec3 := ⟨a.x * k, a.y * k, a.z * k⟩

/-- Negation (`Vector3.negate`). -/
def neg (a : Vec3) : Vec3 := ⟨-a.x, -a.y, -a.z⟩

/-- Euclidean length (`Vector3.length`): `sqrt(x*x + y*y + z*z)`. -/
def norm (a : Vec3) : ℝ := Real.sqrt (a.x * a.x + a.y * a.y + a.z * a.z)

/-- Distance between two vectors (`Vector3.distanceTo`). -/
def dist (a b : Vec3) : ℝ :=
  Real.sqrt ((a.x - b.x) * (a.x - b.x) + (a.y - b.y) * (a.y - b.y) +
    (a.z - b.z) * (a.z - b.z))

/-- `Vector3.normalize`: divides by the length, or by 1 when the length
is zero (`divideScalar(length() || 1)` leaves the zero vector fixed). -/
def normalize (a : Vec3) : Vec3 :=
  if a.norm = 0 then a else a.smul (1 / a.norm)

theorem norm_nonneg (a : Vec3) : 0 ≤ a.norm := Real.sqrt_nonneg _

theorem norm_smul (a : Vec3) (k : ℝ) : (a.smul k).norm = |k| * a.norm := by
  unfold norm smul
  rw [show a.x * k * (a.x * k) + a.y * k * (a.y * k) + a.z * k * (a.z * k)
      = k ^ 2 * (a.x * a.x + a.y * a.y + a.z * a.z) by ring,
    Real.sqrt_mul (sq_nonneg k), Real.sqrt_sq_eq_abs]

theorem norm_normalize (a : Vec3) (h : a.norm ≠ 0) : a.normalize.norm = 1 := by
  have h0 : 0 < a.norm := lt_of_le_of_ne (norm_nonneg a) (Ne.symm h)
  unfold normalize
  rw [if_neg h, norm_smul, abs_of_pos (by positivity : (0:ℝ) < 1 / a.norm),
    one_div, inv_mul_cancel₀ h]

theorem smul_zero' (a : Vec3) : a.smul 0 = ⟨0, 0, 0⟩ := by
  unfold smul; simp

theorem add_zero' (a : Vec3) : a.add ⟨0, 0, 0⟩ = a := by
  unfold add; simp

end Vec3

/-! ## Physics constants (source lines 13-15) -/

/-- `const PLANET_RADIUS = 2`. -/
def PLANET_RADIUS : ℝ := 2

/-- `const GM = 20` — gravitational parameter. -/
def GM : ℝ := 20

/-- `const INITIAL_RADIUS = 4` — starting distance from center. -/
def INITIAL_RADIUS : ℝ := 4

/-! ## Satellite state and the trajectory integrator -/

/-- Events emitted by the integrator during a frame (the `onCrash` /
`onEscape` callbacks). -/
inductive Event where
  | CRASH : Event
  | ESCAPE : Event
deriving DecidableEq

/-- The mutable simulation state of `SimulationScene`: `satPos`,
`satVel`, the `trail` list and the `crashed` flag. -/
structure SimState where
  satPos : Vec3
  satVel : Vec3
  trail : List Vec3
  crashed : Bool

/-- Initialisation / reset effect (source lines 88-107): position at
`(INITIAL_RADIUS, 0, 0)`, velocity `(sin(rads)*speed, 0, -cos(rads)*speed)`
with `rads = angle*π/180`, a one-point trail, crashed cleared. -/
def initSim (initialSpeed angle : ℝ) : SimState :=
  let rads := angle * Real.pi / 180
  let vx := Real.sin rads * initialSpeed
  let vz := -Real.cos rads * initialSpeed
  { satPos := ⟨INITIAL_RADIUS, 0, 0⟩
    satVel := ⟨vx, 0, vz⟩
    trail := [⟨INITIAL_RADIUS, 0, 0⟩]
    crashed := false }

/-- Acceleration at position `p` (source line 132):
`p.clone().normalize().negate().multiplyScalar(GM / (r*r))`. -/
def accelOf (p : Vec3) : Vec3 :=
  (p.normalize.neg).smul (GM / (p.norm * p.norm))

/-- One sub-step's motion update (source lines 134-135):
`satVel += accel*dt` then `satPos += satVel*dt` (semi-implicit Euler:
velocity updated first, then position with the *new* velocity). -/
def motionStep (dt : ℝ) (s : SimState) : SimState :=
  let vNew := s.satVel.add ((accelOf s.satPos).smul dt)
  let pNew := s.satPos.add (vNew.smul dt)
  { s with satPos := pNew, satVel := vNew }

/-- The sub-step loop body of `useFrame` (source lines 116-136), with the
remaining iteration count explicit.  Per sub-step, with `r = |satPos|`:
if `r < PLANET_RADIUS + 0.1`, set `crashed`, emit `CRASH`, and return
from the whole call (no further motion); else emit `ESCAPE` whenever
`r > 60`, then apply the motion update and continue. -/
def subSteps : ℕ → ℝ → SimState → SimState × List Event
  | 0, _, s => (s, [])
  | n + 1, dt, s =>
    if s.satPos.norm < PLANET_RADIUS + 0.1 then
      ({ s with crashed := true }, [Event.CRASH])
    else
      let escEvs : List Event := if 60 < s.satPos.norm then [Event.ESCAPE] else []
      let next := subSteps n dt (motionStep dt s)
      (next.1, escEvs ++ next.2)

/-- Trail update after the sub-steps (source lines 139-146): append the
current position only when the last recorded point exists and is more
than `0.2` away; keep at most the last 300 previous points
(`prev.slice(-300)`) before appending. -/
def updateTrail (s : SimState) : SimState :=
  match s.trail.getLast? with
  | none => s
  | some last =>
    if 0.2 < last.dist s.satPos then
      { s with trail := s.trail.drop (s.trail.length - 300) ++ [s.satPos] }
    else s

/-- One whole `useFrame` tick (source lines 109-147): a no-op unless
running and not crashed; otherwise 4 equal sub-steps of `delta / 4`
each, and, when no crash fired (the crash branch returns early), the
trail update. -/
def useFrame (running : Bool) (s : SimState) (delta : ℝ) : SimState × List Event :=
  if !running || s.crashed then (s, [])
  else
    let dt := delta * 1 / 4
    let out := subSteps 4 dt s
    if out.1.crashed then out else (updateTrail out.1, out.2)

/-! ## Run controller (source lines 168-241, 302-337) -/

/-- The `status` state of the `OrbitalLab` component. -/
inductive RunStatus where
  | IDLE : RunStatus
  | ORBITING : RunStatus
  | CRASH : RunStatus
  | ESCAPE : RunStatus
deriving DecidableEq

/-- The controller-level state: `running`, the two slider parameters,
the status badge, and the owned simulation state (which the reset
effect re-initialises whenever `resetTrigger`, `initialSpeed` or
`angle` change). -/
structure LabState where
  running : Bool
  speed : ℝ
  angle : ℝ
  status : RunStatus
  sim : SimState

/-- `handleReset` (source lines 237-241) together with the reset effect
it triggers: stop running, status `IDLE`, simulation state
re-initialised from the current parameters. -/
def handleReset (st : LabState) : LabState :=
  { st with
    running := false
    status := RunStatus.IDLE
    sim := initSim st.speed st.angle }

/-- `handlePlay` (source lines 231-235). -/
def handlePlay (st : LabState) : LabState :=
  if st.running then st
  else { st with running := true, status := RunStatus.ORBITING }

/-- The speed slider `onChange` (source lines 308-311): set the new
speed, then `handleReset()` — the reset effect re-initialises the
simulation from the *new* speed. -/
def changeSpeed (st : LabState) (v : ℝ) : LabState :=
  handleReset { st with speed := v }

/-- The angle slider `onChange` (source lines 332-335). -/
def changeAngle (st : LabState) (a : ℝ) : LabState :=
  handleReset { st with angle := a }

/-! ## Orbital elements predictor (`trajectoryStats`, source lines 176-228) -/

/-- Specific mechanical energy `E = v0^2/2 - GM/r0` (source line 183). -/
def specificEnergy (v0 : ℝ) : ℝ := v0 * v0 / 2 - GM / INITIAL_RADIUS

/-- Specific angular momentum `h = r0 * v0 * cos(rads)` (source line 187). -/
def angularMomentum (v0 angle : ℝ) : ℝ :=
  INITIAL_RADIUS * v0 * Real.cos (angle * Real.pi / 180)

/-- Semi-major axis `a = -GM / (2E)` (source line 200). -/
def semiMajorAxis (v0 : ℝ) : ℝ := -GM / (2 * specificEnergy v0)

/-- Eccentricity `e = sqrt(1 + 2*E*h*h / (GM*GM))` (source line 202). -/
def eccentricity (v0 angle : ℝ) : ℝ :=
  Real.sqrt (1 + 2 * specificEnergy v0 * angularMomentum v0 angle *
    angularMomentum v0 angle / (GM * GM))

/-- Aphelion distance `rMax = a * (1 + e)` (source line 205). -/
def apoapsisDistance (v0 angle : ℝ) : ℝ :=
  semiMajorAxis v0 * (1 + eccentricity v0 angle)

/-- The classification of `maxAU` by the source's chain of `if`
statements (source lines 210-217). -/
def classify (x : ℝ) : String :=
  if x < 1.1 then "Low Earth Orbit"
  else if x < 1.4 then "High Earth Orbit"
  else if x < 1.8 then "Reaching Mars"
  else if x < 3.0 then "Asteroid Belt"
  else if x < 6.0 then "Reaching Jupiter"
  else if x < 12.0 then "Reaching Saturn"
  else if x < 25.0 then "Reaching Uranus"
  else "Reaching Neptune/Pluto"

/-- Result record of `trajectoryStats`; `maxAU = none` embeds the
JavaScript value `Infinity`. -/
structure TrajStats where
  maxAU : Option ℝ
  targetText : String
  energy : ℝ

/-- `trajectoryStats` (source lines 176-228): if `E ≥ 0`, infinite
aphelion and escape text; otherwise `rMax = a(1+e)`, `maxAU = rMax/4`,
classified by the ordered threshold chain. -/
def trajectoryStats (speed angle : ℝ) : TrajStats :=
  let E := specificEnergy speed
  if 0 ≤ E then
    { maxAU := none, targetText := "Interstellar Space (Escape)", energy := E }
  else
    let rMax := apoapsisDistance speed angle
    let maxAU := rMax / 4
    { maxAU := some maxAU, targetText := classify maxAU, energy := E }

/-- Modelled from the spec: the classification table as "a fixed ordered
list of (threshold, label) pairs checked in ascending order; the last
entry is a catch-all" (spec §4.2). -/
def classificationBands : List (ℝ × String) :=
  [(1.1, "Low Earth Orbit"), (1.4, "High Earth Orbit"),
   (1.8, "Reaching Mars"), (3.0, "Asteroid Belt"),
   (6.0, "Reaching Jupiter"), (12.0, "Reaching Saturn"),
   (25.0, "Reaching Uranus")]

/-- Modelled from the spec: first-match-wins lookup over an ordered
band table, with the catch-all label for values past every bound. -/
def tableClassify : List (ℝ × String) → ℝ → String
  | [], _ => "Reaching Neptune/Pluto"
  | (t, l) :: rest, x => if x < t then l else tableClassify rest x

/-- The pure position/velocity map of a single sub-step (the claim's
symplectic Euler step): velocity first, then position with the new
velocity. -/
def eulerStep (h : ℝ) (pv : Vec3 × Vec3) : Vec3 × Vec3 :=
  let vNew := pv.2.add ((accelOf pv.1).smul h)
  (pv.1.add (vNew.smul h), vNew)

/-! ## Concrete sample states used for evaluation -/

/-- A concrete already-crashed simulation state. -/
def crashedState : SimState :=
  { satPos := ⟨4, 0, 0⟩, satVel := ⟨0, 0, 0⟩, trail := [⟨4, 0, 0⟩],
    crashed := true }

/-- A concrete simulation state inside the impact radius. -/
def lowState : SimState :=
  { satPos := ⟨1, 0, 0⟩, satVel := ⟨0, 0, 0⟩, trail := [⟨1, 0, 0⟩],
    crashed := false }

/-- A concrete simulation state far beyond the escape radius. -/
def escapeState : SimState :=
  { satPos := ⟨100, 0, 0⟩, satVel := ⟨0, 0, 0⟩, trail := [⟨4, 0, 0⟩],
    crashed := false }

/-- A concrete simulation state one unit away from its last trail point. -/
def farState : SimState :=
  { satPos := ⟨5, 0, 0⟩, satVel := ⟨0, 0, 0⟩, trail := [⟨4, 0, 0⟩],
    crashed := false }

/-- A concrete mid-run controller state with a two-point trail. -/
def runLab : LabState :=
  { running := true, speed := 2.2, angle := 0, status := RunStatus.ORBITING,
    sim := { satPos := ⟨5, 0, 0⟩, satVel := ⟨0, 0, 1⟩,
             trail := [⟨4, 0, 0⟩, ⟨5, 0, 0⟩], crashed := false } }

/-- A concrete crashed controller state with the same parameters. -/
def crashedLab : LabState :=
  { running := true, speed := 2.2, angle := 0, status := RunStatus.CRASH,
    sim := { satPos := ⟨1, 0, 0⟩, satVel := ⟨0, 0, 0⟩,
             trail := [⟨4, 0, 0⟩, ⟨3, 0, 0⟩, ⟨1, 0, 0⟩], crashed := true } }

/-! ## Auxiliary lemmas about the embedded operations -/

theorem Vec3.norm_neg (a : Vec3) : a.neg.norm = a.norm := by
  unfold Vec3.norm Vec3.neg
  simp [neg_mul_neg]

theorem Vec3.norm_axis (t : ℝ) (h : 0 ≤ t) : Vec3.norm ⟨t, 0, 0⟩ = t := by
  unfold Vec3.norm
  simp only [mul_zero, add_zero]
  exact Real.sqrt_mul_self h

theorem Vec3.dist_self (a : Vec3) : a.dist a = 0 := by
  unfold Vec3.dist
  simp

theorem motionStep_pv (dt : ℝ) (s : SimState) :
    ((motionStep dt s).satPos, (motionStep dt s).satVel)
      = eulerStep dt (s.satPos, s.satVel) := rfl

theorem motionStep_zero (s : SimState) : motionStep 0 s = s := by
  unfold motionStep
  simp [Vec3.smul_zero', Vec3.add_zero']

theorem eulerStep_zero (pv : Vec3 × Vec3) : eulerStep 0 pv = pv := by
  unfold eulerStep
  simp [Vec3.smul_zero', Vec3.add_zero']

theorem subSteps_trail (n : ℕ) (dt : ℝ) :
    ∀ s : SimState, (subSteps n dt s).1.trail = s.trail := by
  induction n with
  | zero => intro s; rfl
  | succ n ih =>
    intro s
    rw [subSteps]
    split
    · rfl
    · exact ih (motionStep dt s)

theorem subSteps_no_crash (dt : ℝ) :
    ∀ (n : ℕ) (s : SimState),
      (∀ i, i < n → PLANET_RADIUS + 0.1 ≤
        ((eulerStep dt)^[i] (s.satPos, s.satVel)).1.norm) →
      (subSteps n dt s).1 =
        { s with
          satPos := ((eulerStep dt)^[n] (s.satPos, s.satVel)).1
          satVel := ((eulerStep dt)^[n] (s.satPos, s.satVel)).2 } := by
  intro n
  induction n with
  | zero => intro s _; rfl
  | succ n ih =>
    intro s hsafe
    have h0 : PLANET_RADIUS + 0.1 ≤ s.satPos.norm := by
      have := hsafe 0 (Nat.succ_pos n)
      simpa using this
    have hsafe2 : ∀ i, i < n → PLANET_RADIUS + 0.1 ≤
        ((eulerStep dt)^[i]
          ((motionStep dt s).satPos, (motionStep dt s).satVel)).1.norm := by
      intro i hi
      have := hsafe (i + 1) (Nat.succ_lt_succ hi)
      rwa [Function.iterate_succ_apply] at this
    have key := ih (motionStep dt s) hsafe2
    rw [subSteps, if_neg (not_lt.mpr h0)]
    show (subSteps n dt (motionStep dt s)).1 = _
    rw [key, Function.iterate_succ_apply]
    rfl

theorem updateTrail_satPos (s : SimState) : (updateTrail s).satPos = s.satPos := by
  unfold updateTrail
  split
  · rfl
  · split <;> rfl

theorem updateTrail_satVel (s : SimState) : (updateTrail s).satVel = s.satVel := by
  unfold updateTrail
  split
  · rfl
  · split <;> rfl

theorem updateTrail_crashed (s : SimState) : (updateTrail s).crashed = s.crashed := by
  unfold updateTrail
  split
  · rfl
  · split <;> rfl

theorem updateTrail_trailLength (s : SimState) (h : s.trail.length ≤ 301) :
    (updateTrail s).trail.length ≤ 301 := by
  unfold updateTrail
  split
  · exact h
  · split
    · simp only [List.length_append, List.length_drop, List.length_singleton]
      omega
    · exact h

theorem useFrame_events (s : SimState) (δ : ℝ) (hc : s.crashed = false) :
    (useFrame true s δ).2 = (subSteps 4 (δ * 1 / 4) s).2 := by
  unfold useFrame
  simp only [hc, Bool.not_true, Bool.false_or, Bool.false_eq_true, if_false]
  split <;> rfl

theorem accelOf_eq_inverse_cube (p : Vec3) (hr : p.norm ≠ 0) :
    accelOf p = p.smul (-(GM / (p.norm * p.norm * p.norm))) := by
  unfold accelOf Vec3.normalize
  rw [if_neg hr]
  unfold Vec3.neg Vec3.smul
  simp only [Vec3.mk.injEq]
  refine ⟨?_, ?_, ?_⟩ <;> field_simp <;>
    first
      | exact Or.inl trivial
      | exact Or.inl (by ring)

theorem accelOf_norm (p : Vec3) (hr : 0 < p.norm) :
    (accelOf p).norm = GM / (p.norm * p.norm) := by
  have hGM : (0:ℝ) < GM := by norm_num [GM]
  unfold accelOf
  rw [Vec3.norm_smul, Vec3.norm_neg, Vec3.norm_normalize p (ne_of_gt hr), mul_one,
    abs_of_pos (div_pos hGM (mul_pos hr hr))]

theorem classify_eq_tableClassify (x : ℝ) :
    classify x = tableClassify classificationBands x := by
  simp only [classify, classificationBands, tableClassify]

theorem classify_ne_escape (x : ℝ) :
    classify x ≠ "Interstellar Space (Escape)" := by
  unfold classify
  split
  · decide
  · split
    · decide
    · split
      · decide
      · split
        · decide
        · split
          · decide
          · split
            · decide
            · split
              · decide
              · decide

/-! ## Claims -/

/-- C1: for every active (running, not crashed) frame tick with elapsed
time `δ` in which no sub-step triggers the crash check, the integrator
subdivides `δ` into exactly 4 equal sub-steps, and the resulting
position/velocity is the 4-fold iterate of the semi-implicit Euler step
with step `δ/4` (velocity updated from the current position before the
position update); the per-sub-step acceleration has magnitude `GM/r^2`
and is directed toward the center (a negative multiple of the position
vector). -/
theorem c1_frame_four_symplectic_substeps (s : SimState) (δ : ℝ)
    (hc : s.crashed = false)
    (hsafe : ∀ i, i < 4 → PLANET_RADIUS + 0.1 ≤
      ((eulerStep (δ * 1 / 4))^[i] (s.satPos, s.satVel)).1.norm) :
    ((useFrame true s δ).1.satPos, (useFrame true s δ).1.satVel)
        = (eulerStep (δ * 1 / 4))^[4] (s.satPos, s.satVel)
  ∧ (∀ p : Vec3, 0 < p.norm →
      (accelOf p).norm = GM / (p.norm * p.norm)
      ∧ accelOf p = p.smul (-(GM / (p.norm * p.norm * p.norm)))) := by
  constructor
  · have key := subSteps_no_crash (δ * 1 / 4) 4 s hsafe
    have hcr : (subSteps 4 (δ * 1 / 4) s).1.crashed = false := by
      rw [key]
      exact hc
    unfold useFrame
    simp only [Bool.not_true, Bool.false_or, hc, Bool.false_eq_true, if_false]
    rw [if_neg (by rw [hcr]; simp)]
    show ((updateTrail (subSteps 4 (δ * 1 / 4) s).1).satPos,
          (updateTrail (subSteps 4 (δ * 1 / 4) s).1).satVel) = _
    rw [updateTrail_satPos, updateTrail_satVel, key]
  · intro p hp
    exact ⟨accelOf_norm p hp, accelOf_eq_inverse_cube p (ne_of_gt hp)⟩

/-- Witness for C1: the freshly injected state at speed 2.2, angle 0,
with a zero elapsed time (all four iterates stay at radius 4). -/
theorem c1_witness :
    ((useFrame true (initSim 2.2 0) 0).1.satPos,
     (useFrame true (initSim 2.2 0) 0).1.satVel)
      = (eulerStep (0 * 1 / 4))^[4]
          ((initSim 2.2 0).satPos, (initSim 2.2 0).satVel) := by
  have hz : (0:ℝ) * 1 / 4 = 0 := by norm_num
  refine (c1_frame_four_symplectic_substeps (initSim 2.2 0) 0 rfl ?_).1
  intro i hi
  rw [hz, Function.iterate_fixed
    (eulerStep_zero ((initSim 2.2 0).satPos, (initSim 2.2 0).satVel)) i]
  show PLANET_RADIUS + 0.1 ≤ Vec3.norm ⟨INITIAL_RADIUS, 0, 0⟩
  rw [Vec3.norm_axis INITIAL_RADIUS (by norm_num [INITIAL_RADIUS])]
  norm_num [PLANET_RADIUS, INITIAL_RADIUS]

/-- C2: if a sub-step sees `r < PLANET_RADIUS + 0.1`, the CRASH event
fires, the crashed flag is set, and no further motion is applied in
that call; once crashed, every subsequent frame tick is a no-op (state
and trail unchanged); on the crashing call itself the trail is not
updated; reset / parameter re-initialisation clears the flag. -/
theorem c2_crash_is_terminal :
    (∀ (running : Bool) (s : SimState) (δ : ℝ), s.crashed = true →
      useFrame running s δ = (s, []))
  ∧ (∀ (n : ℕ) (dt : ℝ) (s : SimState), s.satPos.norm < PLANET_RADIUS + 0.1 →
      subSteps (n + 1) dt s = ({ s with crashed := true }, [Event.CRASH]))
  ∧ (∀ (s : SimState) (δ : ℝ), s.crashed = false →
      (useFrame true s δ).1.crashed = true →
      (useFrame true s δ).1.trail = s.trail)
  ∧ (∀ v a : ℝ, (initSim v a).crashed = false) := by
  refine ⟨?_, ?_, ?_, ?_⟩
  · intro running s δ h
    unfold useFrame
    simp [h]
  · intro n dt s h
    rw [subSteps, if_pos h]
  · intro s δ hc hcr
    unfold useFrame at hcr ⊢
    simp only [Bool.not_true, Bool.false_or, hc, Bool.false_eq_true, if_false] at hcr ⊢
    by_cases h : (subSteps 4 (δ * 1 / 4) s).1.crashed = true
    · rw [if_pos h]
      exact subSteps_trail 4 (δ * 1 / 4) s
    · rw [if_neg h] at hcr
      exact absurd ((updateTrail_crashed _).symm.trans hcr) h
  · intro v a
    rfl

/-- Witness for C2 at concrete states: a crashed state is frozen, a
sub-threshold radius fires CRASH and freezes, the crashing call leaves
the trail unchanged, and re-initialisation clears the flag. -/
theorem c2_witness :
    useFrame true crashedState 1 = (crashedState, [])
  ∧ subSteps (3 + 1) 1 lowState = ({ lowState with crashed := true }, [Event.CRASH])
  ∧ (useFrame true lowState 1).1.trail = lowState.trail
  ∧ (initSim 2.2 0).crashed = false := by
  have hlow : lowState.satPos.norm < PLANET_RADIUS + 0.1 := by
    have h1 : lowState.satPos.norm = 1 := Vec3.norm_axis 1 (by norm_num)
    rw [h1]
    norm_num [PLANET_RADIUS]
  have hsub : subSteps 4 (1 * 1 / 4) lowState
      = ({ lowState with crashed := true }, [Event.CRASH]) :=
    c2_crash_is_terminal.2.1 3 (1 * 1 / 4) lowState hlow
  refine ⟨c2_crash_is_terminal.1 true crashedState 1 rfl,
          c2_crash_is_terminal.2.1 3 1 lowState hlow,
          c2_crash_is_terminal.2.2.1 lowState 1 rfl ?_,
          c2_crash_is_terminal.2.2.2 2.2 0⟩
  unfold useFrame
  simp only [Bool.not_true, Bool.false_or,
    show lowState.crashed = false from rfl, Bool.false_eq_true, if_false]
  rw [hsub]
  simp

/-- C3 counterexample: with a state beyond the escape radius and a
single frame tick, the ESCAPE event is emitted four times (once per
sub-step), not exactly once. -/
theorem c3_counterexample :
    (useFrame true escapeState 0).2
      = [Event.ESCAPE, Event.ESCAPE, Event.ESCAPE, Event.ESCAPE]
  ∧ ¬ (useFrame true escapeState 0).2.length = 1 := by
  have hn : escapeState.satPos.norm = 100 := Vec3.norm_axis 100 (by norm_num)
  have hno : ¬ escapeState.satPos.norm < PLANET_RADIUS + 0.1 := by
    rw [hn]
    norm_num [PLANET_RADIUS]
  have hesc : (60:ℝ) < escapeState.satPos.norm := by
    rw [hn]
    norm_num
  have hrep : ∀ m, subSteps m 0 escapeState
      = (escapeState, List.replicate m Event.ESCAPE) := by
    intro m
    induction m with
    | zero => rfl
    | succ k ih =>
      rw [subSteps, motionStep_zero, if_neg hno, if_pos hesc, ih]
      rfl
  have hz : (0:ℝ) * 1 / 4 = 0 := by norm_num
  have hev : (useFrame true escapeState 0).2 = List.replicate 4 Event.ESCAPE := by
    rw [useFrame_events escapeState 0 rfl, hz, hrep 4]
  constructor
  · rw [hev]
    rfl
  · rw [hev]
    decide

/-- C3 (amended): at every sub-step with `r > 60` (and no crash), the
ESCAPE event is emitted again — it is re-emitted each qualifying
sub-step rather than latched to fire exactly once — and the integrator
is not frozen: the normal motion update is applied and the remaining
sub-steps continue from it. -/
theorem c3_amended_escape_emits_each_substep (n : ℕ) (dt : ℝ) (s : SimState)
    (h1 : ¬ s.satPos.norm < PLANET_RADIUS + 0.1)
    (h2 : 60 < s.satPos.norm) :
    subSteps (n + 1) dt s
      = ((subSteps n dt (motionStep dt s)).1,
         Event.ESCAPE :: (subSteps n dt (motionStep dt s)).2)
  ∧ (motionStep dt s).crashed = s.crashed
  ∧ (motionStep dt s).trail = s.trail := by
  refine ⟨?_, rfl, rfl⟩
  rw [subSteps, if_neg h1, if_pos h2]
  rfl

/-- Witness for the amended C3 at the concrete far state. -/
theorem c3_amended_witness :
    subSteps (0 + 1) 0 escapeState
      = ((subSteps 0 0 (motionStep 0 escapeState)).1,
         Event.ESCAPE :: (subSteps 0 0 (motionStep 0 escapeState)).2) := by
  have hn : escapeState.satPos.norm = 100 := Vec3.norm_axis 100 (by norm_num)
  exact (c3_amended_escape_emits_each_substep 0 0 escapeState
    (by rw [hn]; norm_num [PLANET_RADIUS]) (by rw [hn]; norm_num)).1

/-- C7 counterexample: resetting a concrete mid-run controller state
yields a trail of length 1 (the single initial position), not 0, so the
claimed "zero-length trail" at `IDLE` is false. -/
theorem c7_counterexample :
    ¬ (handleReset runLab).sim.trail.length = 0
  ∧ (handleReset runLab).sim.trail.length = 1 := by
  constructor
  · simp [handleReset, initSim]
  · simp [handleReset, initSim]

/-- C7 (amended): resetting from any state yields the identical IDLE
state determined only by the current parameters — satellite at
`(R0, 0, 0)` (so at radius `R0`), a one-point trail holding just the
initial position, `RunStatus = IDLE`, not running — and reset is
idempotent. -/
theorem c7_amended_reset_idempotent (st st2 : LabState)
    (hs : st.speed = st2.speed) (ha : st.angle = st2.angle) :
    (handleReset st).status = RunStatus.IDLE
  ∧ (handleReset st).running = false
  ∧ (handleReset st).sim.satPos = ⟨INITIAL_RADIUS, 0, 0⟩
  ∧ (handleReset st).sim.satPos.norm = INITIAL_RADIUS
  ∧ (handleReset st).sim.trail = [⟨INITIAL_RADIUS, 0, 0⟩]
  ∧ (handleReset st).sim.crashed = false
  ∧ handleReset (handleReset st) = handleReset st
  ∧ handleReset st = handleReset st2 := by
  refine ⟨rfl, rfl, rfl, ?_, rfl, rfl, rfl, ?_⟩
  · exact Vec3.norm_axis INITIAL_RADIUS (by norm_num [INITIAL_RADIUS])
  · unfold handleReset
    rw [hs, ha]

/-- Witness for the amended C7: reset from a mid-run state and from a
crashed state with the same parameters agree. -/
theorem c7_amended_witness :
    (handleReset runLab).status = RunStatus.IDLE
  ∧ (handleReset runLab).sim.trail = [⟨INITIAL_RADIUS, 0, 0⟩]
  ∧ handleReset (handleReset runLab) = handleReset runLab
  ∧ handleReset runLab = handleReset crashedLab := by
  have h := c7_amended_reset_idempotent runLab crashedLab rfl rfl
  exact ⟨h.1, h.2.2.2.2.1, h.2.2.2.2.2.2.1, h.2.2.2.2.2.2.2⟩

/-- C8: any change to launch speed or angle performs an implicit reset
with the new value in effect: the handler is exactly set-then-reset,
the run stops, the status returns to IDLE, and the simulation state is
re-initialised from the new parameters (fresh one-point trail, crash
flag cleared). -/
theorem c8_param_change_resets (st : LabState) (v a : ℝ) :
    changeSpeed st v = handleReset { st with speed := v }
  ∧ (changeSpeed st v).speed = v
  ∧ (changeSpeed st v).running = false
  ∧ (changeSpeed st v).status = RunStatus.IDLE
  ∧ (changeSpeed st v).sim = initSim v st.angle
  ∧ (changeSpeed st v).sim.trail = [⟨INITIAL_RADIUS, 0, 0⟩]
  ∧ (changeSpeed st v).sim.crashed = false
  ∧ changeAngle st a = handleReset { st with angle := a }
  ∧ (changeAngle st a).angle = a
  ∧ (changeAngle st a).running = false
  ∧ (changeAngle st a).status = RunStatus.IDLE
  ∧ (changeAngle st a).sim = initSim st.speed a
  ∧ (changeAngle st a).sim.trail = [⟨INITIAL_RADIUS, 0, 0⟩]
  ∧ (changeAngle st a).sim.crashed = false :=
  ⟨rfl, rfl, rfl, rfl, rfl, rfl, rfl, rfl, rfl, rfl, rfl, rfl, rfl, rfl⟩

/-- C9: the new position is appended to the trail only when it is more
than 0.2 units from the last recorded point; when appended, at most the
300 most recent previous points are kept (oldest evicted), so the trail
length is bounded by 301, and the bound is an invariant of every frame
tick from initialisation on. -/
theorem c9_trail_threshold_and_bound :
    (∀ (s : SimState) (last : Vec3), s.trail.getLast? = some last →
      ¬ 0.2 < last.dist s.satPos → updateTrail s = s)
  ∧ (∀ (s : SimState) (last : Vec3), s.trail.getLast? = some last →
      0.2 < last.dist s.satPos →
      (updateTrail s).trail = s.trail.drop (s.trail.length - 300) ++ [s.satPos]
      ∧ (updateTrail s).trail.length ≤ 301)
  ∧ (∀ v a : ℝ, (initSim v a).trail.length ≤ 301)
  ∧ (∀ (running : Bool) (s : SimState) (δ : ℝ), s.trail.length ≤ 301 →
      (useFrame running s δ).1.trail.length ≤ 301) := by
  refine ⟨?_, ?_, ?_, ?_⟩
  · intro s last hlast hfar
    unfold updateTrail
    simp only [hlast]
    rw [if_neg hfar]
  · intro s last hlast hfar
    unfold updateTrail
    simp only [hlast]
    rw [if_pos hfar]
    refine ⟨rfl, ?_⟩
    simp only [List.length_append, List.length_drop, List.length_singleton]
    omega
  · intro v a
    norm_num [initSim]
  · intro running s δ h
    unfold useFrame
    split
    · exact h
    · show (if (subSteps 4 (δ * 1 / 4) s).1.crashed = true
          then subSteps 4 (δ * 1 / 4) s
          else (updateTrail (subSteps 4 (δ * 1 / 4) s).1,
                (subSteps 4 (δ * 1 / 4) s).2)).1.trail.length ≤ 301
      split
      · rw [subSteps_trail]
        exact h
      · show (updateTrail (subSteps 4 (δ * 1 / 4) s).1).trail.length ≤ 301
        apply updateTrail_trailLength
        rw [subSteps_trail]
        exact h

/-- Witness for C9 at concrete states: a same-point update is a no-op,
a one-unit move appends with the window kept, and the bound holds
through a frame tick from the initial state. -/
theorem c9_witness :
    updateTrail (initSim 2.2 0) = initSim 2.2 0
  ∧ (updateTrail farState).trail
      = farState.trail.drop (farState.trail.length - 300) ++ [farState.satPos]
  ∧ (updateTrail farState).trail.length ≤ 301
  ∧ (initSim 2.2 0).trail.length ≤ 301
  ∧ (useFrame false (initSim 2.2 0) 1).1.trail.length ≤ 301 := by
  have hnear : ¬ (0.2:ℝ) < Vec3.dist ⟨INITIAL_RADIUS, 0, 0⟩ ⟨INITIAL_RADIUS, 0, 0⟩ := by
    rw [Vec3.dist_self]
    norm_num
  have hfar : (0.2:ℝ) < Vec3.dist ⟨4, 0, 0⟩ ⟨5, 0, 0⟩ := by
    unfold Vec3.dist
    rw [show ((4:ℝ) - 5) * ((4:ℝ) - 5) + (0 - 0) * (0 - 0) + (0 - 0) * (0 - 0)
        = 1 by norm_num, Real.sqrt_one]
    norm_num
  have h2 := c9_trail_threshold_and_bound.2.1 farState ⟨4, 0, 0⟩ rfl hfar
  refine ⟨c9_trail_threshold_and_bound.1 (initSim 2.2 0) ⟨INITIAL_RADIUS, 0, 0⟩ rfl hnear,
          h2.1, h2.2,
          c9_trail_threshold_and_bound.2.2.1 2.2 0,
          c9_trail_threshold_and_bound.2.2.2 false (initSim 2.2 0) 1
            (c9_trail_threshold_and_bound.2.2.1 2.2 0)⟩

/-- C10: the injected initial velocity `(sin(θπ/180)·v, 0, −cos(θπ/180)·v)`
has Euclidean magnitude exactly the configured launch speed `v` (for
nonnegative `v`), and the initial position has magnitude exactly
`R0 = INITIAL_RADIUS`. -/
theorem c10_injection_realizes_speed (v a : ℝ) (hv : 0 ≤ v) :
    (initSim v a).satVel.norm = v
  ∧ (initSim v a).satPos.norm = INITIAL_RADIUS := by
  constructor
  · show Vec3.norm ⟨Real.sin (a * Real.pi / 180) * v, 0,
      -Real.cos (a * Real.pi / 180) * v⟩ = v
    unfold Vec3.norm
    have hsc := Real.sin_sq_add_cos_sq (a * Real.pi / 180)
    rw [show Real.sin (a * Real.pi / 180) * v * (Real.sin (a * Real.pi / 180) * v)
        + 0 * 0 + -Real.cos (a * Real.pi / 180) * v *
          (-Real.cos (a * Real.pi / 180) * v) = v ^ 2 by
      linear_combination (v ^ 2) * hsc]
    exact Real.sqrt_sq hv
  · show Vec3.norm ⟨INITIAL_RADIUS, 0, 0⟩ = INITIAL_RADIUS
    exact Vec3.norm_axis INITIAL_RADIUS (by norm_num [INITIAL_RADIUS])

/-- Witness for C10 at speed 2.2, angle 0. -/
theorem c10_witness :
    (initSim 2.2 0).satVel.norm = 2.2
  ∧ (initSim 2.2 0).satPos.norm = INITIAL_RADIUS :=
  c10_injection_realizes_speed 2.2 0 (by norm_num)

/-- C4: the predictor reports an infinite aphelion and the escape text
exactly when the specific energy is nonnegative; for negative energy it
returns the finite `a·(1+e)` aphelion (scaled by the 4-units-per-AU
conversion) and classifies it by the ordered first-match-wins table of
strictly ascending thresholds. -/
theorem c4_predictor_escape_iff (speed angle : ℝ) :
    ((trajectoryStats speed angle).maxAU = none ↔ 0 ≤ specificEnergy speed)
  ∧ ((trajectoryStats speed angle).targetText = "Interstellar Space (Escape)" ↔
      0 ≤ specificEnergy speed)
  ∧ (specificEnergy speed < 0 →
      (trajectoryStats speed angle).maxAU
        = some (semiMajorAxis speed * (1 + eccentricity speed angle) / 4)
      ∧ (trajectoryStats speed angle).targetText
        = tableClassify classificationBands (apoapsisDistance speed angle / 4))
  ∧ List.Chain' (fun p q => p < q) (classificationBands.map Prod.fst) := by
  refine ⟨?_, ?_, ?_, ?_⟩
  · unfold trajectoryStats
    by_cases h : 0 ≤ specificEnergy speed
    · rw [if_pos h]
      simpa using h
    · rw [if_neg h]
      simpa using h
  · unfold trajectoryStats
    by_cases h : 0 ≤ specificEnergy speed
    · rw [if_pos h]
      simpa using h
    · rw [if_neg h]
      constructor
      · intro hx
        exact absurd hx (classify_ne_escape _)
      · intro hx
        exact absurd hx h
  · intro hE
    unfold trajectoryStats
    rw [if_neg (not_le.mpr hE)]
    exact ⟨rfl, classify_eq_tableClassify _⟩
  · norm_num [classificationBands, List.chain'_cons]

/-- Witness for C4 at speed 1, angle 0 (a bound orbit). -/
theorem c4_witness :
    ((trajectoryStats 1 0).maxAU = none ↔ 0 ≤ specificEnergy 1)
  ∧ specificEnergy 1 < 0
  ∧ (trajectoryStats 1 0).maxAU
      = some (semiMajorAxis 1 * (1 + eccentricity 1 0) / 4)
  ∧ (trajectoryStats 1 0).targetText
      = tableClassify classificationBands (apoapsisDistance 1 0 / 4) := by
  have hE : specificEnergy 1 < 0 := by
    norm_num [specificEnergy, GM, INITIAL_RADIUS]
  have h := c4_predictor_escape_iff 1 0
  exact ⟨h.1, hE, (h.2.2.1 hE).1, (h.2.2.1 hE).2⟩

/-- C5: for every launch speed and angle within the sliders' validated
ranges (`speed ≥ 1`, `|angle| ≤ 45°`) whose specific energy is
negative, the radicand of the eccentricity formula is nonnegative (no
NaN in exact arithmetic) and the eccentricity lies in `[0, 1)`. -/
theorem c5_bound_eccentricity_in_unit_interval (v a : ℝ)
    (hv : 1 ≤ v) (ha : |a| ≤ 45) (hE : specificEnergy v < 0) :
    0 ≤ 1 + 2 * specificEnergy v * angularMomentum v a *
      angularMomentum v a / (GM * GM)
  ∧ 0 ≤ eccentricity v a ∧ eccentricity v a < 1 := by
  have hpi := Real.pi_pos
  have habs := abs_le.mp ha
  have hsc := Real.sin_sq_add_cos_sq (a * Real.pi / 180)
  have hc : 0 < Real.cos (a * Real.pi / 180) := by
    apply Real.cos_pos_of_mem_Ioo
    constructor
    · have h1 : -45 * Real.pi ≤ a * Real.pi :=
        mul_le_mul_of_nonneg_right habs.1 hpi.le
      nlinarith
    · have h2 : a * Real.pi ≤ 45 * Real.pi :=
        mul_le_mul_of_nonneg_right habs.2 hpi.le
      nlinarith
  have hv0 : (0:ℝ) < v := lt_of_lt_of_le one_pos hv
  have hrad : 0 ≤ 1 + 2 * specificEnergy v * angularMomentum v a *
      angularMomentum v a / (GM * GM) := by
    have key : 1 + 2 * specificEnergy v * angularMomentum v a *
        angularMomentum v a / (GM * GM)
        = ((5 - v ^ 2 * Real.cos (a * Real.pi / 180) ^ 2) ^ 2
            + (v ^ 2 * Real.cos (a * Real.pi / 180) *
                Real.sin (a * Real.pi / 180)) ^ 2) / 25 := by
      unfold specificEnergy angularMomentum GM INITIAL_RADIUS
      linear_combination (-(v ^ 4 * Real.cos (a * Real.pi / 180) ^ 2) / 25) * hsc
    rw [key]
    positivity
  have hlt : 1 + 2 * specificEnergy v * angularMomentum v a *
      angularMomentum v a / (GM * GM) < 1 := by
    have hh : 0 < angularMomentum v a := by
      unfold angularMomentum INITIAL_RADIUS
      positivity
    have hGM : (0:ℝ) < GM * GM := by norm_num [GM]
    have hnum : 2 * specificEnergy v * angularMomentum v a *
        angularMomentum v a < 0 := by
      nlinarith [mul_pos hh hh]
    nlinarith [div_neg_of_neg_of_pos hnum hGM]
  refine ⟨hrad, Real.sqrt_nonneg _, ?_⟩
  unfold eccentricity
  rw [Real.sqrt_lt' one_pos]
  nlinarith [hlt]

/-- Witness for C5 at speed 2.2, angle 0. -/
theorem c5_witness :
    (1:ℝ) ≤ 2.2 ∧ |(0:ℝ)| ≤ 45 ∧ specificEnergy 2.2 < 0
  ∧ 0 ≤ eccentricity 2.2 0 ∧ eccentricity 2.2 0 < 1 := by
  have hE : specificEnergy 2.2 < 0 := by
    norm_num [specificEnergy, GM, INITIAL_RADIUS]
  have h := c5_bound_eccentricity_in_unit_interval 2.2 0
    (by norm_num) (by norm_num) hE
  exact ⟨by norm_num, by norm_num, hE, h.2.1, h.2.2⟩

/-- C6: with `GM = 20`, `R0 = 4`, speed 2.2 and angle 0°, the predictor
reports negative specific energy (−2.58), eccentricity exactly 0.032
(within any small tolerance of 0), and aphelion distance exactly 4 =
`R0` (so `maxAU = 1`). -/
theorem c6_near_circular_scenario :
    (trajectoryStats 2.2 0).energy = -2.58
  ∧ (trajectoryStats 2.2 0).energy < 0
  ∧ eccentricity 2.2 0 = 0.032
  ∧ apoapsisDistance 2.2 0 = 4
  ∧ apoapsisDistance 2.2 0 = INITIAL_RADIUS
  ∧ (trajectoryStats 2.2 0).maxAU = some 1 := by
  have hE : specificEnergy 2.2 = -2.58 := by
    norm_num [specificEnergy, GM, INITIAL_RADIUS]
  have hH : angularMomentum 2.2 0 = 8.8 := by
    unfold angularMomentum
    rw [show (0:ℝ) * Real.pi / 180 = 0 by ring, Real.cos_zero]
    norm_num [INITIAL_RADIUS]
  have hEcc : eccentricity 2.2 0 = 0.032 := by
    unfold eccentricity
    rw [hE, hH]
    rw [show (1 + 2 * (-2.58) * 8.8 * 8.8 / (GM * GM) : ℝ) = 0.032 ^ 2 by
      norm_num [GM]]
    exact Real.sqrt_sq (by norm_num)
  have hApo : apoapsisDistance 2.2 0 = 4 := by
    unfold apoapsisDistance semiMajorAxis
    rw [hE, hEcc]
    norm_num [GM]
  have hEn : (trajectoryStats 2.2 0).energy = -2.58 := by
    unfold trajectoryStats
    rw [if_neg (by rw [hE]; norm_num)]
    exact hE
  refine ⟨hEn, by rw [hEn]; norm_num, hEcc, hApo, by rw [hApo]; norm_num [INITIAL_RADIUS], ?_⟩
  unfold trajectoryStats
  rw [if_neg (by rw [hE]; norm_num)]
  simp only
  rw [hApo]
  norm_num

end OrbitalLab

end
